import Mathlib

/-!
Verification of the cube-face geometry and the scene renderer of
`grid_plotter.py`.

The Python module builds, for each leaf cell of a spatial tree, the six
axis-aligned faces of a cube (each face being three 2×2 coordinate grids)
and submits each face to a 3D plotting surface.  Coordinates are embedded
as rationals; a grid is a list of rows.  The renderer is embedded as a
trace semantics: `grid_plotter` returns the ordered list of observable
events (tree accessor calls and draw submissions) that the Python code
performs.
-/

namespace GridPlotter

/-- A coordinate grid: a list of rows of rational coordinates. -/
abbrev Grid := List (List ℚ)

/-- A face: three coordinate grids (X, Y, Z), as returned by the
`plot_surface_*` functions. -/
abbrev Face := Grid × Grid × Grid

/-- Model of `np.meshgrid(xs, ys)` for 1-D inputs: returns `(X, Y)` with
`X[i][j] = xs[j]` and `Y[i][j] = ys[i]`, both of shape
`(ys.length, xs.length)`. -/
def meshgrid (xs ys : List ℚ) : Grid × Grid :=
  (ys.map (fun _ => xs), ys.map (fun v => xs.map (fun _ => v)))

/-- Embedding of `plot_surface_xy(x, y, z, length)`: the two faces with
constant z. -/
def plot_surface_xy (x y z length : ℚ) : Face × Face :=
  let rx := [x, x + length]
  let ry := [y, y + length]
  let XY := meshgrid rx ry
  let r_1 := [z, z]
  let r_2 := [z + length, z + length]
  let p1 := (meshgrid r_1 r_1).1
  let p2 := (meshgrid r_2 r_2).1
  ((XY.1, XY.2, p1), (XY.1, XY.2, p2))

/-- Embedding of `plot_surface_yz(x, y, z, length)`: the two faces with
constant x. -/
def plot_surface_yz (x y z length : ℚ) : Face × Face :=
  let ry := [y, y + length]
  let rz := [z, z + length]
  let YZ := meshgrid ry rz
  let r_1 := [x, x]
  let r_2 := [x + length, x + length]
  let p1 := (meshgrid r_1 r_1).1
  let p2 := (meshgrid r_2 r_2).1
  ((p1, YZ.1, YZ.2), (p2, YZ.1, YZ.2))

/-- Embedding of `plot_surface_xz(x, y, z, length)`: the two faces with
constant y. -/
def plot_surface_xz (x y z length : ℚ) : Face × Face :=
  let rx := [x, x + length]
  let rz := [z, z + length]
  let XZ := meshgrid rx rz
  let r_1 := [y, y]
  let r_2 := [y + length, y + length]
  let p1 := (meshgrid r_1 r_1).1
  let p2 := (meshgrid r_2 r_2).1
  ((XZ.1, p1, XZ.2), (XZ.1, p2, XZ.2))

/-- A 3-D point: the corner of a cube (`corner[0], corner[1], corner[2]`
in the Python code). -/
structure Point3 where
  x : ℚ
  y : ℚ
  z : ℚ
deriving DecidableEq, Inhabited

/-- Embedding of `plot_cube(corner, length)`: the six faces, in the order
XY-low, XY-high, YZ-low, YZ-high, XZ-low, XZ-high. -/
def plot_cube (corner : Point3) (length : ℚ) : List Face :=
  let ab := plot_surface_xy corner.x corner.y corner.z length
  let cd := plot_surface_yz corner.x corner.y corner.z length
  let ef := plot_surface_xz corner.x corner.y corner.z length
  [ab.1, ab.2, cd.1, cd.2, ef.1, ef.2]

/-- A leaf node of the external tree, exposing its bounding box. -/
structure LeafNode where
  lowerBounds : Point3
  upperBounds : Point3
deriving DecidableEq, Inhabited

/-- The external tree, consumed through its two accessors. -/
structure Tree where
  nEndNodes : ℕ
  fetchEndNode : ℕ → LeafNode

/-- An observable event of the renderer: a call to one of the tree's
accessors, a call to a leaf's bounds, or a draw submission to the
plotting surface. -/
inductive Event where
  | nEndNodes (n : ℕ)
  | fetchEndNode (i : ℕ)
  | lowerBounds (i : ℕ)
  | upperBounds (i : ℕ)
  | drawSurface (X Y Z : Grid) (color : String) (alpha : ℚ)
deriving DecidableEq

/-- The draw submission `ax.plot_surface(d[0], d[1], d[2], color="purple",
alpha=0.01)` for one face. -/
def drawEvent (d : Face) : Event :=
  Event.drawSurface d.1 d.2.1 d.2.2 "purple" (1 / 100)

/-- Trace semantics of `grid_plotter(tree)`: the ordered list of events.
The Python code first builds the list `corners` (one `fetchEndNode` and
one `lowerBounds` call per index), then the list `lengths` (per index:
`fetchEndNode`, `upperBounds`, `fetchEndNode`, `lowerBounds`, in Python's
left-to-right evaluation order), then loops over the leaves drawing the
six faces of each cube; `tree.nEndNodes()` is called once by each of the
three `range(...)` uses. -/
def grid_plotter (tree : Tree) : List Event :=
  let corners := (List.range tree.nEndNodes).map
    (fun i => (tree.fetchEndNode i).lowerBounds)
  let lengths := (List.range tree.nEndNodes).map
    (fun i => (tree.fetchEndNode i).upperBounds.x - (tree.fetchEndNode i).lowerBounds.x)
  (Event.nEndNodes tree.nEndNodes ::
    (List.range tree.nEndNodes).flatMap
      (fun i => [Event.fetchEndNode i, Event.lowerBounds i]))
  ++ (Event.nEndNodes tree.nEndNodes ::
    (List.range tree.nEndNodes).flatMap
      (fun i => [Event.fetchEndNode i, Event.upperBounds i,
                 Event.fetchEndNode i, Event.lowerBounds i]))
  ++ (Event.nEndNodes tree.nEndNodes ::
    (List.range tree.nEndNodes).flatMap
      (fun i => (plot_cube (corners.getD i default) (lengths.getD i 0)).map drawEvent))

/-- Whether an event is a draw submission. -/
def isDraw : Event → Bool
  | Event.drawSurface _ _ _ _ _ => true
  | _ => false

/-- Whether an event reads leaf bounds from the tree (`fetchEndNode`,
`lowerBounds` or `upperBounds`). -/
def isBoundsRead : Event → Bool
  | Event.fetchEndNode _ => true
  | Event.lowerBounds _ => true
  | Event.upperBounds _ => true
  | _ => false

/-- The draw submissions of a render, in order. -/
def drawCalls (tree : Tree) : List Event :=
  (grid_plotter tree).filter isDraw

/-- A grid is 2×2: two rows of two entries each. -/
def gridIs2x2 (g : Grid) : Bool :=
  g.length = 2 && g.all (fun row => row.length = 2)

/-- A face consists of three 2×2 grids. -/
def faceIs2x2 (f : Face) : Bool :=
  gridIs2x2 f.1 && gridIs2x2 f.2.1 && gridIs2x2 f.2.2

/-- Every entry of the grid equals `v`. -/
def gridConst (g : Grid) (v : ℚ) : Prop :=
  ∀ row ∈ g, ∀ a ∈ row, a = v

/-- Every entry of the grid is one of the two given values. -/
def gridVals (g : Grid) (a b : ℚ) : Prop :=
  ∀ row ∈ g, ∀ v ∈ row, v = a ∨ v = b

/-- The grid spans `{a, b}`: every entry is `a` or `b`, and both occur. -/
def gridSpans (g : Grid) (a b : ℚ) : Prop :=
  gridVals g a b ∧ (∃ row ∈ g, a ∈ row) ∧ (∃ row ∈ g, b ∈ row)

/-- Each of the three grids of the face is constant (a degenerate,
zero-area quad). -/
def faceConstGrids (f : Face) : Prop :=
  (∃ v, gridConst f.1 v) ∧ (∃ v, gridConst f.2.1 v) ∧ (∃ v, gridConst f.2.2 v)

/-- A tree with no leaves. -/
def emptyTree : Tree := ⟨0, fun _ => default⟩

/-- The unit leaf cell with bounds `(0,0,0)`–`(1,1,1)`. -/
def unitLeaf : LeafNode := ⟨⟨0, 0, 0⟩, ⟨1, 1, 1⟩⟩

/-- A tree with exactly one leaf, the unit cell. -/
def oneLeafTree : Tree := ⟨1, fun _ => unitLeaf⟩

/-- C1: for every corner and length, `plot_cube` returns exactly 6 faces,
namely the concatenation of the three face pairs in the order XY-low,
XY-high, YZ-low, YZ-high, XZ-low, XZ-high, and every face consists of
three 2×2 coordinate grids. -/
theorem plot_cube_six_faces (corner : Point3) (length : ℚ) :
    plot_cube corner length =
      [(plot_surface_xy corner.x corner.y corner.z length).1,
       (plot_surface_xy corner.x corner.y corner.z length).2,
       (plot_surface_yz corner.x corner.y corner.z length).1,
       (plot_surface_yz corner.x corner.y corner.z length).2,
       (plot_surface_xz corner.x corner.y corner.z length).1,
       (plot_surface_xz corner.x corner.y corner.z length).2]
    ∧ (plot_cube corner length).length = 6
    ∧ (plot_cube corner length).all faceIs2x2 = true :=
  ⟨rfl, rfl, rfl⟩

/-- C2: `plot_surface_xy` returns two faces; the first has Z-grid
constantly `z`, the second constantly `z + length`; both have X-grid
values drawn from `{x, x + length}` and Y-grid values drawn from
`{y, y + length}`, and each grid is 2×2. -/
theorem plot_surface_xy_spec (x y z length : ℚ) :
    gridConst (plot_surface_xy x y z length).1.2.2 z
    ∧ gridConst (plot_surface_xy x y z length).2.2.2 (z + length)
    ∧ gridVals (plot_surface_xy x y z length).1.1 x (x + length)
    ∧ gridVals (plot_surface_xy x y z length).2.1 x (x + length)
    ∧ gridVals (plot_surface_xy x y z length).1.2.1 y (y + length)
    ∧ gridVals (plot_surface_xy x y z length).2.2.1 y (y + length)
    ∧ faceIs2x2 (plot_surface_xy x y z length).1 = true
    ∧ faceIs2x2 (plot_surface_xy x y z length).2 = true := by
  simp only [plot_surface_xy, meshgrid, gridConst, gridVals, faceIs2x2, gridIs2x2,
    List.map_cons, List.map_nil]
  refine ⟨?_, ?_, ?_, ?_, ?_, ?_, rfl, rfl⟩ <;>
    · intro row hrow v hv
      simp only [List.mem_cons, List.not_mem_nil, or_false] at hrow
      rcases hrow with h | h <;> subst h <;> simp_all

/-- C3: `plot_surface_yz` returns two faces whose X-grids are constant at
`x` and `x + length` respectively, with Y- and Z-grids spanning
`{y, y + length}` and `{z, z + length}`; `plot_surface_xz` returns two
faces whose Y-grids are constant at `y` and `y + length` respectively,
with X- and Z-grids spanning `{x, x + length}` and `{z, z + length}`. -/
theorem plot_surface_yz_xz_spec (x y z length : ℚ) :
    gridConst (plot_surface_yz x y z length).1.1 x
    ∧ gridConst (plot_surface_yz x y z length).2.1 (x + length)
    ∧ gridSpans (plot_surface_yz x y z length).1.2.1 y (y + length)
    ∧ gridSpans (plot_surface_yz x y z length).2.2.1 y (y + length)
    ∧ gridSpans (plot_surface_yz x y z length).1.2.2 z (z + length)
    ∧ gridSpans (plot_surface_yz x y z length).2.2.2 z (z + length)
    ∧ gridConst (plot_surface_xz x y z length).1.2.1 y
    ∧ gridConst (plot_surface_xz x y z length).2.2.1 (y + length)
    ∧ gridSpans (plot_surface_xz x y z length).1.1 x (x + length)
    ∧ gridSpans (plot_surface_xz x y z length).2.1 x (x + length)
    ∧ gridSpans (plot_surface_xz x y z length).1.2.2 z (z + length)
    ∧ gridSpans (plot_surface_xz x y z length).2.2.2 z (z + length) := by
  simp only [plot_surface_yz, plot_surface_xz, meshgrid, gridConst, gridSpans, gridVals,
    List.map_cons, List.map_nil]
  refine ⟨?_, ?_, ⟨?_, ?_, ?_⟩, ⟨?_, ?_, ?_⟩, ⟨?_, ?_, ?_⟩, ⟨?_, ?_, ?_⟩,
    ?_, ?_, ⟨?_, ?_, ?_⟩, ⟨?_, ?_, ?_⟩, ⟨?_, ?_, ?_⟩, ⟨?_, ?_, ?_⟩⟩ <;>
    simp

/-- C7: `plot_cube` is deterministic: two calls with identical corner and
length inputs return identical lists of six faces. -/
theorem plot_cube_deterministic (c₁ c₂ : Point3) (l₁ l₂ : ℚ)
    (hc : c₁ = c₂) (hl : l₁ = l₂) :
    plot_cube c₁ l₁ = plot_cube c₂ l₂ := by
  rw [hc, hl]

/-- Witness for C7 at a concrete input. -/
theorem plot_cube_deterministic_witness :
    plot_cube ⟨0, 0, 0⟩ 1 = plot_cube ⟨0, 0, 0⟩ 1 :=
  plot_cube_deterministic ⟨0, 0, 0⟩ ⟨0, 0, 0⟩ 1 1 rfl rfl

/-- A 2×2 grid whose four entries are all `v` is constant at `v`. -/
lemma gridConst_four (v : ℚ) : gridConst [[v, v], [v, v]] v := by
  simp [gridConst]

/-- C8: `plot_cube` (and thereby the three face builders) is total on all
rational corners and lengths, always returning six well-formed faces with
2×2 grids — also for `length = 0`, where additionally every grid of every
face is constant (a zero-area, degenerate quad), and for negative
lengths, where no validation failure occurs. -/
theorem plot_cube_total (corner : Point3) (length : ℚ) :
    ((plot_cube corner length).length = 6
      ∧ (plot_cube corner length).all faceIs2x2 = true)
    ∧ (∀ f ∈ plot_cube corner 0, faceConstGrids f) := by
  refine ⟨⟨rfl, rfl⟩, ?_⟩
  intro f hf
  simp only [plot_cube, plot_surface_xy, plot_surface_yz, plot_surface_xz, meshgrid,
    List.map_cons, List.map_nil, List.mem_cons, List.not_mem_nil, or_false,
    add_zero] at hf
  rcases hf with h | h | h | h | h | h <;> subst h <;>
    exact ⟨⟨_, gridConst_four _⟩, ⟨_, gridConst_four _⟩, ⟨_, gridConst_four _⟩⟩

/-- The events of the two list comprehensions reading the leaf bounds
(the `corners` and `lengths` lists), before any drawing happens. -/
def readPhase (tree : Tree) : List Event :=
  (Event.nEndNodes tree.nEndNodes ::
    (List.range tree.nEndNodes).flatMap
      (fun i => [Event.fetchEndNode i, Event.lowerBounds i]))
  ++ (Event.nEndNodes tree.nEndNodes ::
    (List.range tree.nEndNodes).flatMap
      (fun i => [Event.fetchEndNode i, Event.upperBounds i,
                 Event.fetchEndNode i, Event.lowerBounds i]))

/-- The events of the final drawing loop. -/
def drawPhase (tree : Tree) : List Event :=
  Event.nEndNodes tree.nEndNodes ::
    (List.range tree.nEndNodes).flatMap
      (fun i => (plot_cube (tree.fetchEndNode i).lowerBounds
          ((tree.fetchEndNode i).upperBounds.x
            - (tree.fetchEndNode i).lowerBounds.x)).map drawEvent)

/-- Reading an index below `n` from a list built by mapping over
`List.range n` returns the mapped value. -/
lemma getD_map_range {α : Type} {f : ℕ → α} {n i : ℕ} (h : i < n) {d : α} :
    ((List.range n).map f).getD i d = f i := by
  rw [List.getD_eq_getElem?_getD, List.getElem?_map, List.getElem?_range h]
  rfl

/-- Two flatMaps agree when their functions agree on the list. -/
lemma flatMap_congr_local {α β : Type} (f g : α → List β) (l : List α)
    (h : ∀ a ∈ l, f a = g a) : l.flatMap f = l.flatMap g := by
  induction l with
  | nil => rfl
  | cons a l ih =>
    rw [List.flatMap_cons, List.flatMap_cons, h a (List.mem_cons_self a l),
      ih (fun b hb => h b (List.mem_cons_of_mem a hb))]

/-- The renderer's trace is the two bounds-reading comprehensions
followed by the drawing loop. -/
lemma grid_plotter_phases (tree : Tree) :
    grid_plotter tree = readPhase tree ++ drawPhase tree := by
  unfold grid_plotter readPhase drawPhase
  simp only [List.append_cancel_left_eq, List.cons.injEq, true_and]
  refine flatMap_congr_local _ _ _ ?_
  intro i hi
  rw [List.mem_range] at hi
  rw [getD_map_range hi, getD_map_range hi]

/-- The draw submissions are, in order per leaf `i`, the images under
`drawEvent` of the six faces of `plot_cube` applied to the leaf's lower
bounds and its x-axis extent. -/
lemma drawCalls_flatMap (tree : Tree) :
    drawCalls tree = (List.range tree.nEndNodes).flatMap
      (fun i => (plot_cube (tree.fetchEndNode i).lowerBounds
          ((tree.fetchEndNode i).upperBounds.x
            - (tree.fetchEndNode i).lowerBounds.x)).map drawEvent) := by
  rw [drawCalls, grid_plotter_phases, List.filter_append]
  have h₁ : (readPhase tree).filter isDraw = [] := by
    rw [List.filter_eq_nil_iff]
    intro e he
    rw [readPhase] at he
    simp only [List.mem_append, List.mem_cons, List.mem_flatMap, List.mem_range,
      List.not_mem_nil, or_false] at he
    rcases he with (rfl | ⟨i, hi, rfl | rfl⟩) | (rfl | ⟨i, hi, rfl | rfl | rfl | rfl⟩) <;>
      simp [isDraw]
  have h₂ : (drawPhase tree).filter isDraw =
      (List.range tree.nEndNodes).flatMap
        (fun i => (plot_cube (tree.fetchEndNode i).lowerBounds
            ((tree.fetchEndNode i).upperBounds.x
              - (tree.fetchEndNode i).lowerBounds.x)).map drawEvent) := by
    rw [drawPhase, List.filter_cons_of_neg (by simp [isDraw])]
    rw [List.filter_eq_self]
    intro e he
    rw [List.mem_flatMap] at he
    obtain ⟨i, _, hmem⟩ := he
    rw [List.mem_map] at hmem
    obtain ⟨f, _, rfl⟩ := hmem
    rfl
  rw [h₁, h₂, List.nil_append]

/-- C4: the renderer builds leaf `i`'s six faces from
`corner = (tree.fetchEndNode i).lowerBounds` and edge length
`upperBounds.x - lowerBounds.x` (the x-axis extent, reused for all
three axes): its draw submissions are exactly the `plot_cube` faces of
those arguments, leaf by leaf. -/
theorem grid_plotter_corner_length (tree : Tree) :
    drawCalls tree = (List.range tree.nEndNodes).flatMap
      (fun i => (plot_cube (tree.fetchEndNode i).lowerBounds
          ((tree.fetchEndNode i).upperBounds.x
            - (tree.fetchEndNode i).lowerBounds.x)).map drawEvent) :=
  drawCalls_flatMap tree

/-- C5: a render of a tree with `n` leaves submits exactly `6 * n` draw
calls, each with color `"purple"` and alpha `1/100`. -/
theorem grid_plotter_draw_count (tree : Tree) :
    (drawCalls tree).length = 6 * tree.nEndNodes
    ∧ ∀ e ∈ drawCalls tree,
        ∃ X Y Z, e = Event.drawSurface X Y Z "purple" (1 / 100) := by
  constructor
  · rw [drawCalls_flatMap, List.length_flatMap]
    have h1 : ∀ x ∈ List.range tree.nEndNodes,
        (List.length ∘ fun i => (plot_cube (tree.fetchEndNode i).lowerBounds
            ((tree.fetchEndNode i).upperBounds.x
              - (tree.fetchEndNode i).lowerBounds.x)).map drawEvent) x
          = (fun _ => 6) x := by
      intro x _
      simp [plot_cube]
    rw [List.map_congr_left h1, List.map_const', List.sum_replicate, List.length_range,
      smul_eq_mul, Nat.mul_comm]
  · intro e he
    rw [drawCalls_flatMap, List.mem_flatMap] at he
    obtain ⟨i, _, hm⟩ := he
    rw [List.mem_map] at hm
    obtain ⟨f, _, rfl⟩ := hm
    exact ⟨f.1, f.2.1, f.2.2, rfl⟩

/-- C6: a tree without leaves renders to an empty scene: the trace is
just the three `nEndNodes` calls and no draw call is issued. -/
theorem grid_plotter_empty_scene (tree : Tree) (h : tree.nEndNodes = 0) :
    grid_plotter tree
        = [Event.nEndNodes 0, Event.nEndNodes 0, Event.nEndNodes 0]
    ∧ drawCalls tree = [] := by
  constructor
  · simp [grid_plotter, h]
  · simp [drawCalls, grid_plotter, h, isDraw]

/-- Witness for C6 on the concrete empty tree. -/
theorem grid_plotter_empty_scene_witness :
    grid_plotter emptyTree
        = [Event.nEndNodes 0, Event.nEndNodes 0, Event.nEndNodes 0]
    ∧ drawCalls emptyTree = [] :=
  grid_plotter_empty_scene emptyTree rfl

/-- Summing an indicator over `List.range n` picks out the hit below
`n`. -/
lemma sum_map_ite_range (c : ℕ) {n i : ℕ} (h : i < n) :
    ((List.range n).map (fun j => if i = j then c else 0)).sum = c := by
  induction n with
  | zero => exact absurd h (Nat.not_lt_zero i)
  | succ n ih =>
    rw [List.range_succ, List.map_append, List.sum_append]
    rcases Nat.lt_succ_iff_lt_or_eq.mp h with h' | h'
    · have hne : i ≠ n := Nat.ne_of_lt h'
      rw [ih h']
      simp [hne]
    · subst h'
      have hz : ((List.range i).map (fun j => if i = j then c else 0)).sum = 0 := by
        rw [List.sum_eq_zero]
        intro x hx
        rw [List.mem_map] at hx
        obtain ⟨j, hj, rfl⟩ := hx
        rw [List.mem_range] at hj
        rw [if_neg (Nat.ne_of_gt hj)]
      rw [hz]
      simp

/-- Counting over a flatMap of `List.range n` when exactly the blocks at
the hit index contain `c` occurrences. -/
lemma count_flatMap_ite (x : Event) (g : ℕ → List Event) (c : ℕ) {n i : ℕ}
    (hg : ∀ j, (g j).count x = if i = j then c else 0) (h : i < n) :
    ((List.range n).flatMap g).count x = c := by
  rw [List.count_flatMap]
  have hmap : List.map (List.count x ∘ g) (List.range n)
      = List.map (fun j => if i = j then c else 0) (List.range n) :=
    List.map_congr_left (fun j _ => hg j)
  rw [hmap]
  exact sum_map_ite_range c h

/-- Counting over a flatMap whose blocks never contain `x`. -/
lemma count_flatMap_zero (x : Event) (g : ℕ → List Event) (n : ℕ)
    (hg : ∀ j, x ∉ g j) : ((List.range n).flatMap g).count x = 0 := by
  rw [List.count_eq_zero, List.mem_flatMap]
  rintro ⟨j, _, hc⟩
  exact hg j hc

/-- C9: for every leaf index `i` below the leaf count, the render calls
`fetchEndNode i` exactly three times (once for the corner, twice for the
length), and calls `nEndNodes` exactly three times. -/
theorem grid_plotter_accessor_counts (tree : Tree) (i : ℕ)
    (h : i < tree.nEndNodes) :
    (grid_plotter tree).count (Event.fetchEndNode i) = 3
    ∧ (grid_plotter tree).count (Event.nEndNodes tree.nEndNodes) = 3 := by
  have hfetch1 : ∀ j,
      List.count (Event.fetchEndNode i)
          [Event.fetchEndNode j, Event.lowerBounds j]
        = if i = j then 1 else 0 := by
    intro j
    by_cases hij : i = j
    · subst hij; simp
    · simp [hij]
  have hfetch2 : ∀ j,
      List.count (Event.fetchEndNode i)
          [Event.fetchEndNode j, Event.upperBounds j,
           Event.fetchEndNode j, Event.lowerBounds j]
        = if i = j then 2 else 0 := by
    intro j
    by_cases hij : i = j
    · subst hij; simp
    · simp [hij]
  have hdraw : ∀ (x : Event), (∀ X Y Z c a, x ≠ Event.drawSurface X Y Z c a) →
      ((List.range tree.nEndNodes).flatMap
        (fun j => (plot_cube (tree.fetchEndNode j).lowerBounds
            ((tree.fetchEndNode j).upperBounds.x
              - (tree.fetchEndNode j).lowerBounds.x)).map drawEvent)).count x = 0 := by
    intro x hx
    refine count_flatMap_zero _ _ _ ?_
    intro j hmem
    rw [List.mem_map] at hmem
    obtain ⟨f, _, heq⟩ := hmem
    exact hx f.1 f.2.1 f.2.2 "purple" (1 / 100) heq.symm
  constructor
  · rw [grid_plotter_phases]
    rw [List.count_append, readPhase, drawPhase, List.count_append,
      List.count_cons, List.count_cons, List.count_cons]
    rw [count_flatMap_ite _ _ 1 hfetch1 h, count_flatMap_ite _ _ 2 hfetch2 h]
    rw [hdraw (Event.fetchEndNode i) (by intro X Y Z c a hne; cases hne)]
    simp
  · rw [grid_plotter_phases]
    rw [List.count_append, readPhase, drawPhase, List.count_append,
      List.count_cons, List.count_cons, List.count_cons]
    have hz1 : ((List.range tree.nEndNodes).flatMap
        (fun j => [Event.fetchEndNode j, Event.lowerBounds j])).count
          (Event.nEndNodes tree.nEndNodes) = 0 :=
      count_flatMap_zero _ _ _ (fun j => by simp)
    have hz2 : ((List.range tree.nEndNodes).flatMap
        (fun j => [Event.fetchEndNode j, Event.upperBounds j,
                   Event.fetchEndNode j, Event.lowerBounds j])).count
          (Event.nEndNodes tree.nEndNodes) = 0 :=
      count_flatMap_zero _ _ _ (fun j => by simp)
    rw [hz1, hz2,
      hdraw (Event.nEndNodes tree.nEndNodes) (by intro X Y Z c a hne; cases hne)]
    simp

/-- Witness for C9 on the concrete one-leaf tree at leaf index 0. -/
theorem grid_plotter_accessor_counts_witness :
    (grid_plotter oneLeafTree).count (Event.fetchEndNode 0) = 3
    ∧ (grid_plotter oneLeafTree).count (Event.nEndNodes 1) = 3 :=
  grid_plotter_accessor_counts oneLeafTree 0 (by decide)

/-- C10: every tree accessor event of a render (all `fetchEndNode`,
`lowerBounds` and `upperBounds` calls, which populate the `corners` and
`lengths` lists) happens before the first draw submission: the trace
splits into a read phase with no draw and a draw phase with no bounds
read. -/
theorem grid_plotter_reads_before_draws (tree : Tree) :
    grid_plotter tree = readPhase tree ++ drawPhase tree
    ∧ (∀ e ∈ readPhase tree, isDraw e = false)
    ∧ (∀ e ∈ drawPhase tree, isBoundsRead e = false) := by
  refine ⟨grid_plotter_phases tree, ?_, ?_⟩
  · intro e he
    rw [readPhase] at he
    simp only [List.mem_append, List.mem_cons, List.mem_flatMap, List.mem_range,
      List.not_mem_nil, or_false] at he
    rcases he with (rfl | ⟨i, hi, rfl | rfl⟩) | (rfl | ⟨i, hi, rfl | rfl | rfl | rfl⟩) <;>
      rfl
  · intro e he
    rw [drawPhase] at he
    simp only [List.mem_cons, List.mem_flatMap, List.mem_range, List.mem_map] at he
    rcases he with rfl | ⟨i, hi, f, hf, rfl⟩ <;> rfl

end GridPlotter
